import Mathlib

/-!
Verification of the AZLeads lead forwarding & callback reconciliation pipeline.

This file gives a shallow embedding of the pipeline's core functions:

* the Field Transformer (buildAnonymizedPayload / applyTransform, from the
  forward worker in the backend source),
* the HMAC signer/verifier (createHmacSignature in the forward worker,
  verifyHmacSignature in the callback route),
* the replay-protection cache (RedisHelper.checkReplayAttack),
* the Forward Orchestrator per-attempt algorithm (processForwardLead),
* the Callback Reconciler (the POST /advertiser_callback route handler),

and proves or refutes the specification's claims about them.

JavaScript semantics relevant to the embedding:

* JS objects are modelled as association lists with unique keys; property
  assignment replaces the value in place, preserving key order, or appends.
* JS truthiness: undefined, null, the empty string, 0 and false are falsy.
* Node Buffer.from(s, "hex") decodes hex pairs case-insensitively and stops
  at the first character that is not a hex digit; a lone trailing digit is
  dropped.  crypto.timingSafeEqual throws on length mismatch; the verifier
  wraps it in try/catch and returns false in that case.
* The HMAC primitive (Node crypto.createHmac) is an external library; it is
  modelled as an arbitrary function parameter from (algorithm, secret,
  message) to a hex digest string.
-/

namespace AZLeads

/-- A JavaScript value as it appears in lead payloads: a string, a number,
a boolean or null.  An absent (undefined) value is represented by an
enclosing Option being none. -/
inductive JVal where
  | vstr (s : String)
  | vnum (n : Int)
  | vbool (b : Bool)
  | vnull
  deriving DecidableEq, Repr

/-- A JavaScript object: an association list of keys to values, keys unique,
in insertion order. -/
abbrev Obj := List (String × JVal)

/-- Property read o[k]: the value at key k, or none (undefined). -/
def objGet : Obj → String → Option JVal
  | [], _ => none
  | (k', v) :: rest, k => if k' = k then some v else objGet rest k

/-- Property write o[k] = v: replaces the value in place if the key exists,
otherwise appends, as JS assignment does. -/
def objSet : Obj → String → JVal → Obj
  | [], k, v => [(k, v)]
  | (k', v') :: rest, k, v =>
    if k' = k then (k', v) :: rest else (k', v') :: objSet rest k v

/-- JS truthiness of a possibly-undefined value. -/
def truthy : Option JVal → Bool
  | none => false
  | some (JVal.vstr s) => s != ""
  | some (JVal.vnum n) => n != 0
  | some (JVal.vbool b) => b
  | some JVal.vnull => false

/-- The JS short-circuit a || b on possibly-undefined values. -/
def jsOr (a b : Option JVal) : Option JVal :=
  if truthy a then a else b

/-- The check value !== undefined && value !== null from the source. -/
def isPresent : Option JVal → Bool
  | none => false
  | some JVal.vnull => false
  | some _ => true

/-- A nullable database string column as a JS value. -/
def optStr : Option String → JVal
  | some s => JVal.vstr s
  | none => JVal.vnull

/-- A field-mapping transform descriptor: a type tag and, for concat, a
template with a single value placeholder. -/
structure Transform where
  type : String
  template : Option String
  deriving DecidableEq, Repr

/-- A per-advertiser field-mapping rule (table field_mappings). -/
structure FieldMapping where
  sourceField : String
  targetField : String
  allowlist : Bool
  transform : Option Transform
  deriving DecidableEq, Repr

/-- Replace the first occurrence of the pattern, as the JS string method
replace with a string pattern does.  Auxiliary, on character lists. -/
def replaceFirstAux (pat rep : List Char) : List Char → List Char
  | [] => []
  | c :: rest =>
    if pat ≠ [] ∧ (c :: rest).take pat.length = pat then
      rep ++ (c :: rest).drop pat.length
    else
      c :: replaceFirstAux pat rep rest

/-- JS template.replace(pat, rep): first occurrence only. -/
def jsReplaceFirst (s pat rep : String) : String :=
  String.mk (replaceFirstAux pat.toList rep.toList s.toList)

/-- applyTransform from the forward worker: transforms apply only to string
values; the concat transform substitutes the value into the template and
falls back to the bare value when the template is missing or the result is
the (falsy) empty string. -/
def applyTransform (value : JVal) (transform : Option Transform) : JVal :=
  match transform, value with
  | none, v => v
  | some t, JVal.vstr s =>
    if t.type = "uppercase" then JVal.vstr s.toUpper
    else if t.type = "lowercase" then JVal.vstr s.toLower
    else if t.type = "trim" then JVal.vstr s.trim
    else if t.type = "concat" then
      match t.template with
      | some tpl =>
        let r := jsReplaceFirst tpl "\x7b\x7bvalue\x7d\x7d" s
        if r = "" then JVal.vstr s else JVal.vstr r
      | none => JVal.vstr s
    else JVal.vstr s
  | some _, v => v

/-- A lead row, with the raw tracking payload from its traffic log. -/
structure Lead where
  azTxId : String
  status : String
  email : Option String
  phone : Option String
  firstName : Option String
  lastName : Option String
  country : Option String
  rawPayload : Obj
  deriving DecidableEq, Repr

/-- The standardFields object built by the forward worker from the lead's
canonical contact columns. -/
def standardFields (lead : Lead) : Obj :=
  [("email", optStr lead.email),
   ("phone", optStr lead.phone),
   ("first_name", optStr lead.firstName),
   ("last_name", optStr lead.lastName),
   ("country", optStr lead.country)]

/-- Value resolution for one rule: the raw tracking payload value, with JS
|| fallback to the standard field of the same name. -/
def resolveValue (lead : Lead) (src : String) : Option JVal :=
  jsOr (objGet lead.rawPayload src) (objGet (standardFields lead) src)

/-- One iteration of the rule loop in buildAnonymizedPayload: skip the rule
when the resolved value is undefined or null, otherwise write the
transformed value under the rule's target field. -/
def applyRule (lead : Lead) (payload : Obj) (m : FieldMapping) : Obj :=
  match resolveValue lead m.sourceField with
  | none => payload
  | some JVal.vnull => payload
  | some v => objSet payload m.targetField (applyTransform v m.transform)

/-- The default mapping used when the advertiser has no allow-listed rules:
all non-null standard fields under their canonical names. -/
def defaultPayload (lead : Lead) : Obj :=
  (standardFields lead).foldl
    (fun payload kv =>
      match kv.2 with
      | JVal.vnull => payload
      | v => objSet payload kv.1 v)
    []

/-- The advertiser's allow-listed rules, as selected by the database query
(filter allowlist = true). -/
def allowRules (rules : List FieldMapping) : List FieldMapping :=
  rules.filter (·.allowlist)

/-- buildAnonymizedPayload from the forward worker. -/
def buildAnonymizedPayload (lead : Lead) (rules : List FieldMapping) : Obj :=
  let fieldMappings := allowRules rules
  if fieldMappings.length > 0 then
    fieldMappings.foldl (applyRule lead) []
  else
    defaultPayload lead

/-- The outbound request payload: the JS spread of the anonymized payload
over an object whose first property is az_tx_id.  Spread assigns the spread
object's properties in order, overwriting earlier ones, so a payload key
az_tx_id overwrites the initial property. -/
def requestPayload (lead : Lead) (rules : List FieldMapping) : Obj :=
  (buildAnonymizedPayload lead rules).foldl
    (fun acc kv => objSet acc kv.1 kv.2)
    [("az_tx_id", JVal.vstr lead.azTxId)]

/-- The type of the external HMAC primitive (Node crypto.createHmac …
digest hex): algorithm, secret, message to hex digest. -/
def HmacFn := String → String → String → String

/-- createHmacSignature from the forward worker: digest of
"timestamp:body" keyed by the advertiser secret. -/
def createHmacSignature (hmac : HmacFn) (algo secret timestamp body : String) :
    String :=
  hmac algo secret (timestamp ++ ":" ++ body)

/-- Value of one hex digit, either case, as Buffer.from(…, "hex") accepts. -/
def hexDigitVal (c : Char) : Option Nat :=
  if '0' ≤ c ∧ c ≤ '9' then some (c.toNat - '0'.toNat)
  else if 'a' ≤ c ∧ c ≤ 'f' then some (c.toNat - 'a'.toNat + 10)
  else if 'A' ≤ c ∧ c ≤ 'F' then some (c.toNat - 'A'.toNat + 10)
  else none

/-- Node Buffer.from(s, "hex"): decode hex pairs, stopping at the first
non-hex character; a lone trailing digit is dropped. -/
def hexDecodeAux : List Char → List Nat
  | c1 :: c2 :: rest =>
    match hexDigitVal c1, hexDigitVal c2 with
    | some h, some l => (16 * h + l) :: hexDecodeAux rest
    | _, _ => []
  | _ => []

/-- Node Buffer.from(s, "hex") on a string. -/
def hexDecode (s : String) : List Nat :=
  hexDecodeAux s.toList

/-- JS signature.split(…) on the equals sign, on character lists. -/
def splitEqAux (acc : List Char) : List Char → List (List Char)
  | [] => [acc.reverse]
  | c :: rest =>
    if c = '=' then acc.reverse :: splitEqAux [] rest
    else splitEqAux (c :: acc) rest

/-- JS signature.split on the equals sign. -/
def jsSplitEq (s : String) : List String :=
  (splitEqAux [] s.toList).map String.mk

/-- JS parseInt(s, 10): skip leading whitespace, optional sign, read leading
decimal digits; none models NaN. -/
def parseIntJS (s : String) : Option Int :=
  let l := s.toList.dropWhile (·.isWhitespace)
  let sign : Int := if l.headD ' ' = '-' then -1 else 1
  let l' := if l.headD ' ' = '-' ∨ l.headD ' ' = '+' then l.tail else l
  let digits := l'.takeWhile (·.isDigit)
  if digits.isEmpty then none
  else some (sign * (digits.foldl (fun a c => a * 10 + ((c.toNat - '0'.toNat : Nat) : Int)) 0))

/-- verifyHmacSignature from the callback route.  Rejections return false:
a timestamp parsing to a value more than 300 seconds from now (a
non-numeric timestamp parses to NaN, and the NaN comparison is false, so it
passes this check); an algorithm prefix different from the configured one;
and a digest whose decoded bytes differ from the expected digest's
(timingSafeEqual throws on length mismatch, caught and turned into false,
as is the absent-hash case where the header has no equals sign). -/
def verifyHmacSignature (hmac : HmacFn) (algo : String) (now : Int)
    (secret timestamp body signature : String) : Bool :=
  let windowReject :=
    match parseIntJS timestamp with
    | some t => decide ((now - t).natAbs > 300)
    | none => false
  if windowReject then false
  else
    let parts := jsSplitEq signature
    let algorithm := parts.headD ""
    if algorithm ≠ algo then false
    else
      match parts[1]? with
      | none => false
      | some hash =>
        let expectedHash := hmac algo secret (timestamp ++ ":" ++ body)
        let hb := hexDecode hash
        let eb := hexDecode expectedHash
        if hb.length = eb.length then decide (hb = eb) else false

/-- The replay-protection cache: Redis keys with their absolute expiry
time.  A key set at time t with a 300 second TTL is visible at t2 exactly
when t2 < t + 300. -/
structure ReplayCache where
  entries : List (String × Int)
  deriving DecidableEq, Repr

/-- The Redis key used by checkReplayAttack. -/
def replayKey (timestamp signature : String) : String :=
  "replay:" ++ timestamp ++ ":" ++ signature

/-- Redis EXISTS, honouring expiry. -/
def redisExists (c : ReplayCache) (now : Int) (key : String) : Bool :=
  c.entries.any (fun e => e.1 == key && decide (now < e.2))

/-- RedisHelper.checkReplayAttack: first use of a (timestamp, signature)
pair stores the key for 300 seconds and reports false (not a replay); a
key already present reports true. -/
def checkReplayAttack (c : ReplayCache) (now : Int) (timestamp signature : String) :
    Bool × ReplayCache :=
  let key := replayKey timestamp signature
  if redisExists c now key then (true, c)
  else (false, ⟨(key, now + 300) :: c.entries⟩)

/-- An advertiser row, as joined by the forward worker. -/
structure Advertiser where
  id : String
  endpointUrl : String
  endpointSecret : Option String
  deriving DecidableEq, Repr

/-- A routing-table row joined with its advertiser. -/
structure Mapping where
  advertiser : Advertiser
  forwardUrl : Option String
  deriving DecidableEq, Repr

/-- mapping.forwardUrl || advertiser.endpointUrl: the JS || also falls back
on an empty override. -/
def resolveEndpointUrl (m : Mapping) : String :=
  match m.forwardUrl with
  | some u => if u = "" then m.advertiser.endpointUrl else u
  | none => m.advertiser.endpointUrl

/-- The BullMQ job bookkeeping processForwardLead reads: attempts already
made before this execution, and the configured attempt cap (job.opts.attempts,
with the JS || 3 fallback applying to an absent or zero value). -/
structure JobInfo where
  attemptsMade : Nat
  optsAttempts : Option Nat
  deriving DecidableEq, Repr

/-- The effective attempt cap: job.opts.attempts || 3. -/
def effectiveAttempts (j : JobInfo) : Nat :=
  match j.optsAttempts with
  | some n => if n = 0 then 3 else n
  | none => 3

/-- The outcome of the axios POST with validateStatus status < 500:
the promise resolves for any response below 500, rejects with the response
status for 500 and above, and rejects without a status on transport errors
(timeout, connection failure). -/
inductive HttpOutcome where
  | resolved (status : Nat)
  | errStatus (status : Nat)
  | netError
  deriving DecidableEq, Repr

/-- One row of the forward_logs table as written by processForwardLead.
responseIsError marks the rows whose response column holds an error message
instead of the advertiser's response. -/
structure ForwardLogRow where
  attemptNo : Nat
  requestBody : Obj
  statusCode : Option Nat
  responseIsError : Bool
  deriving DecidableEq, Repr

/-- The observable effect of one processForwardLead execution: the
forward_logs rows written in order, the lead status written (none when the
lead row was not updated), and whether the function threw — a throw is how
the worker signals failure to BullMQ, which then schedules a retry while
attempts remain. -/
structure ForwardResult where
  logs : List ForwardLogRow
  leadStatus : Option String
  throws : Bool
  deriving DecidableEq, Repr

/-- processForwardLead, the per-attempt algorithm of the forward worker.

The delivery-outcome handling mirrors the source exactly: a resolved
non-2xx response first writes a full forward log row and sets the lead to
forward_failed, then throws a plain Error; that Error lands in the same
catch block that handles axios failures, which writes a second log row
(statusCode error.response?.status || null, which is null for a plain
Error), takes the server-error branch because the plain Error has no
response property, and re-throws. -/
def processForwardLead (job : JobInfo) (lead? : Option Lead)
    (mapping? : Option Mapping) (rules : List FieldMapping)
    (outcome : HttpOutcome) : ForwardResult :=
  match lead? with
  | none => ⟨[], none, true⟩
  | some lead =>
    if lead.status ≠ "pending" then ⟨[], none, false⟩
    else
      match mapping? with
      | none => ⟨[], some "no_mapping", false⟩
      | some _ =>
        let req := requestPayload lead rules
        let attemptNo := job.attemptsMade + 1
        let isFinal := job.attemptsMade ≥ effectiveAttempts job - 1
        match outcome with
        | HttpOutcome.resolved status =>
          let row1 : ForwardLogRow := ⟨attemptNo, req, some status, false⟩
          if 200 ≤ status ∧ status < 300 then
            ⟨[row1], some "forwarded", false⟩
          else
            let row2 : ForwardLogRow := ⟨attemptNo, req, none, true⟩
            ⟨[row1, row2], some "forward_failed", true⟩
        | HttpOutcome.errStatus status =>
          let row : ForwardLogRow := ⟨attemptNo, req, some status, true⟩
          if status < 500 then
            ⟨[row], some "forward_failed", true⟩
          else
            ⟨[row], if isFinal then some "forward_failed" else none, true⟩
        | HttpOutcome.netError =>
          let row : ForwardLogRow := ⟨attemptNo, req, none, true⟩
          ⟨[row], if isFinal then some "forward_failed" else none, true⟩

/-- The advertiser fields the callback route reads off the lead's joined
advertiser row. -/
structure CbAdvertiser where
  id : String
  endpointSecret : Option String
  deriving DecidableEq, Repr

/-- The lead row as read and updated by the callback route.  The advertiser
field is the join lead.advertiser (none when the lead has no assigned
advertiser). -/
structure CbLead where
  id : String
  azTxId : String
  affiliateId : String
  advertiser : Option CbAdvertiser
  status : String
  advertiserStatus : Option String
  payout : Option Int
  ftdAt : Option Int
  deriving DecidableEq, Repr

/-- The parsed callback request body.  An empty azTxId or status models the
JS falsy check that rejects absent or empty fields. -/
structure CallbackPayload where
  azTxId : String
  status : String
  externalId : Option String
  payout : Option Int
  deriving DecidableEq, Repr

/-- One callback_logs row as written by the route (the statusCode column is
hard-coded to 200 at the write site). -/
structure CallbackLogRow where
  advertiserId : String
  azTxId : String
  payload : CallbackPayload
  signature : Option String
  statusCode : Nat
  deriving DecidableEq, Repr

/-- One commissions row as written by the route. -/
structure CommissionRow where
  leadId : String
  advertiserId : String
  affiliateId : String
  amount : Int
  deriving DecidableEq, Repr

/-- The store touched by one callback: the lead looked up by az_tx_id, the
append-only callback_logs and commissions tables, and the replay cache. -/
structure CallbackState where
  lead : Option CbLead
  callbackLogs : List CallbackLogRow
  commissions : List CommissionRow
  replay : ReplayCache
  deriving DecidableEq, Repr

/-- The route's HTTP result: the 200 body ok true, or an ApiError with an
HTTP status and error code thrown to the error middleware. -/
inductive CallbackResult where
  | ok
  | apiError (status : Nat) (code : String)
  deriving DecidableEq, Repr

/-- JSON.stringify(req.body) as used for signature verification, for a body
with the declared callback fields in canonical order. -/
def stringifyPayload (p : CallbackPayload) : String :=
  "\x7b\"az_tx_id\":\"" ++ p.azTxId ++ "\",\"status\":\"" ++ p.status ++ "\""
    ++ (match p.externalId with
        | some e => ",\"external_id\":\"" ++ e ++ "\""
        | none => "")
    ++ (match p.payout with
        | some n => ",\"payout\":" ++ toString n
        | none => "")
    ++ "\x7d"

/-- The commission duplicate check: an existing commissions row for this
(lead, advertiser) pair. -/
def commissionMatches (leadId advId : String) (c : CommissionRow) : Bool :=
  c.leadId == leadId && c.advertiserId == advId

/-- The number of commissions rows for a (lead, advertiser) pair. -/
def commissionCount (st : CallbackState) (leadId advId : String) : Nat :=
  (st.commissions.filter (commissionMatches leadId advId)).length

/-- The accepted-callback tail of the route: append the callback_logs row,
update the lead (advertiserStatus always; payout when supplied; on approved
with no prior conversion timestamp set ftdAt and canonical status approved;
on rejected set canonical status rejected), and create a commission for an
approved callback with a truthy positive payout unless one already exists
for this (lead, advertiser) pair.  Always acknowledges ok. -/
def callbackAccept (now : Int) (st : CallbackState) (lead : CbLead)
    (adv : CbAdvertiser) (p : CallbackPayload) (sig : Option String) :
    CallbackResult × CallbackState :=
  let logRow : CallbackLogRow := ⟨adv.id, p.azTxId, p, sig, 200⟩
  let l1 := { lead with advertiserStatus := some p.status }
  let l2 :=
    match p.payout with
    | some v => { l1 with payout := some v }
    | none => l1
  let lead2 :=
    if p.status = "approved" ∧ lead.ftdAt = none then
      { l2 with ftdAt := some now, status := "approved" }
    else if p.status = "rejected" then
      { l2 with status := "rejected" }
    else l2
  let commissions2 :=
    match p.payout with
    | some v =>
      if p.status = "approved" ∧ v ≠ 0 ∧ v > 0 then
        if st.commissions.any (commissionMatches lead.id adv.id) then
          st.commissions
        else
          st.commissions ++ [⟨lead.id, adv.id, lead.affiliateId, v⟩]
      else st.commissions
    | none => st.commissions
  (CallbackResult.ok,
   { st with
       lead := some lead2,
       callbackLogs := st.callbackLogs ++ [logRow],
       commissions := commissions2 })

/-- The POST /advertiser_callback handler.  Validates the body, looks up
the lead by az_tx_id, requires an assigned advertiser, and runs the
signature and replay gate only when the advertiser secret and both
signature headers are all present and non-empty (JS truthiness of the
conjunction); an invalid signature is rejected 401 and a replayed
(timestamp, signature) pair 400, in both cases before the callback_logs
write.  Every other path falls through to the accepted-callback tail. -/
def handleCallback (hmac : HmacFn) (algo : String) (now : Int)
    (st : CallbackState) (p : CallbackPayload) (sig ts : Option String) :
    CallbackResult × CallbackState :=
  if p.azTxId = "" then (CallbackResult.apiError 400 "MISSING_AZ_TX_ID", st)
  else if p.status = "" then (CallbackResult.apiError 400 "MISSING_STATUS", st)
  else
    match st.lead with
    | none => (CallbackResult.apiError 404 "LEAD_NOT_FOUND", st)
    | some lead =>
      if lead.azTxId ≠ p.azTxId then
        (CallbackResult.apiError 404 "LEAD_NOT_FOUND", st)
      else
        match lead.advertiser with
        | none => (CallbackResult.apiError 400 "NO_ADVERTISER", st)
        | some adv =>
          match adv.endpointSecret, sig, ts with
          | some secret, some sg, some t =>
            if secret ≠ "" ∧ sg ≠ "" ∧ t ≠ "" then
              if verifyHmacSignature hmac algo now secret t (stringifyPayload p) sg then
                if (checkReplayAttack st.replay now t sg).1 then
                  (CallbackResult.apiError 400 "REPLAY_ATTACK", st)
                else
                  callbackAccept now
                    { st with replay := (checkReplayAttack st.replay now t sg).2 }
                    lead adv p sig
              else
                (CallbackResult.apiError 401 "INVALID_SIGNATURE", st)
            else
              callbackAccept now st lead adv p sig
          | _, _, _ =>
            callbackAccept now st lead adv p sig

/-! Concrete fixtures used by witnesses and counterexamples. -/

/-- A stand-in for the external HMAC primitive with a fixed two-hex-digit
digest; the verifier's control flow does not depend on the digest's
length. -/
def hmacAB : HmacFn := fun _ _ _ => "ab"

/-- A pending lead with one contact field. -/
def leadF : Lead := ⟨"TX1", "pending", some "x@y", none, none, none, none, []⟩

/-- An advertiser with no endpoint secret. -/
def advF : Advertiser := ⟨"ADV1", "https://adv.example/leads", none⟩

/-- An enabled mapping to advF with no URL override. -/
def mapF : Mapping := ⟨advF, none⟩

/-- A first-execution job with the spec's attempt cap of 6. -/
def jobF : JobInfo := ⟨0, some 6⟩

/-- A field-mapping rule whose target field is the reserved key az_tx_id. -/
def ruleC4 : FieldMapping := ⟨"email", "az_tx_id", true, none⟩

/-- A lead whose raw tracking payload carries an empty-string email while
the canonical lead column holds a non-empty address. -/
def leadC9 : Lead :=
  ⟨"TX1", "pending", some "x@y.z", none, none, none, none,
   [("email", JVal.vstr "")]⟩

/-- A rule forwarding the email source field to the target field e. -/
def ruleC9 : FieldMapping := ⟨"email", "e", true, none⟩

/-- leadC9 with a phone number added: differs from leadC9 only in a field
that is not the source field of any rule. -/
def leadC9b : Lead :=
  ⟨"TX1", "pending", some "x@y.z", some "555", none, none, none,
   [("email", JVal.vstr "")]⟩

/-- A callback-side advertiser with configured secret s. -/
def cbAdvS : CbAdvertiser := ⟨"ADV1", some "s"⟩

/-- A forwarded lead assigned to cbAdvS. -/
def cbLeadS : CbLead := ⟨"L1", "TX1", "AFF1", some cbAdvS, "forwarded", none, none, none⟩

/-- A store holding cbLeadS with empty logs, ledger and replay cache. -/
def stS : CallbackState := ⟨some cbLeadS, [], [], ⟨[]⟩⟩

/-- An approved callback payload with payout 25. -/
def pA : CallbackPayload := ⟨"TX1", "approved", none, some 25⟩

/-- A callback-side advertiser with no secret (unauthenticated mode). -/
def cbAdvN : CbAdvertiser := ⟨"ADV1", none⟩

/-- A forwarded lead assigned to cbAdvN. -/
def cbLeadN : CbLead := ⟨"L1", "TX1", "AFF1", some cbAdvN, "forwarded", none, none, none⟩

/-- A store holding cbLeadN with empty logs, ledger and replay cache. -/
def stN : CallbackState := ⟨some cbLeadN, [], [], ⟨[]⟩⟩

/-! Helper lemmas about the object model. -/

theorem objGet_objSet (o : Obj) (k : String) (v : JVal) (key : String) :
    objGet (objSet o k v) key = if k = key then some v else objGet o key := by
  induction o with
  | nil => simp [objSet, objGet]
  | cons kv rest ih =>
    obtain ⟨k0, v0⟩ := kv
    simp only [objSet]
    by_cases h : k0 = k
    · subst h
      simp only [if_pos rfl, objGet]
      split_ifs <;> simp_all
    · simp only [if_neg h, objGet, ih]
      split_ifs <;> simp_all

theorem mem_objSet (o : Obj) (k : String) (v : JVal) :
    ∀ kv ∈ objSet o k v, kv.1 = k ∨ kv ∈ o := by
  induction o with
  | nil => simp [objSet]
  | cons hd rest ih =>
    obtain ⟨k0, v0⟩ := hd
    intro kv hkv
    simp only [objSet] at hkv
    by_cases h : k0 = k
    · rw [if_pos h] at hkv
      rcases List.mem_cons.mp hkv with h1 | h1
      · subst h1; left; exact h
      · right; exact List.mem_cons_of_mem _ h1
    · rw [if_neg h] at hkv
      rcases List.mem_cons.mp hkv with h1 | h1
      · right; subst h1; exact List.mem_cons_self _ _
      · rcases ih kv h1 with h2 | h2
        · left; exact h2
        · right; exact List.mem_cons_of_mem _ h2

theorem objGet_foldl_objSet (l : List (String × JVal)) (acc : Obj) (key : String)
    (h : ∀ kv ∈ l, kv.1 ≠ key) :
    objGet (l.foldl (fun acc kv => objSet acc kv.1 kv.2) acc) key = objGet acc key := by
  induction l generalizing acc with
  | nil => rfl
  | cons kv rest ih =>
    simp only [List.foldl_cons]
    rw [ih _ (fun x hx => h x (List.mem_cons_of_mem _ hx))]
    rw [objGet_objSet]
    exact if_neg (h kv (List.mem_cons_self _ _))

theorem isSome_objGet_foldl_objSet (l : List (String × JVal)) (acc : Obj) (key : String)
    (h : (objGet acc key).isSome = true) :
    (objGet (l.foldl (fun acc kv => objSet acc kv.1 kv.2) acc) key).isSome = true := by
  induction l generalizing acc with
  | nil => exact h
  | cons kv rest ih =>
    simp only [List.foldl_cons]
    apply ih
    rw [objGet_objSet]
    split_ifs with hk
    · rfl
    · exact h

theorem isSome_objGet_foldl_objSet_inv (l : List (String × JVal)) (acc : Obj) (key : String)
    (h : (objGet (l.foldl (fun acc kv => objSet acc kv.1 kv.2) acc) key).isSome = true) :
    (objGet acc key).isSome = true ∨ key ∈ l.map (·.1) := by
  induction l generalizing acc with
  | nil => exact Or.inl h
  | cons kv rest ih =>
    simp only [List.foldl_cons] at h
    rcases ih _ h with h1 | h1
    · rw [objGet_objSet] at h1
      by_cases hk : kv.1 = key
      · right; simp [hk]
      · left; rwa [if_neg hk] at h1
    · right; rw [List.map_cons]; exact List.mem_cons_of_mem _ h1

theorem mem_applyRule (lead : Lead) (acc : Obj) (m : FieldMapping) :
    ∀ kv ∈ applyRule lead acc m, kv ∈ acc ∨ kv.1 = m.targetField := by
  intro kv hkv
  unfold applyRule at hkv
  cases hr : resolveValue lead m.sourceField with
  | none => rw [hr] at hkv; exact Or.inl hkv
  | some v =>
    rw [hr] at hkv
    cases v with
    | vnull => exact Or.inl hkv
    | vstr s =>
      rcases mem_objSet _ _ _ kv hkv with h | h
      · exact Or.inr h
      · exact Or.inl h
    | vnum n =>
      rcases mem_objSet _ _ _ kv hkv with h | h
      · exact Or.inr h
      · exact Or.inl h
    | vbool b =>
      rcases mem_objSet _ _ _ kv hkv with h | h
      · exact Or.inr h
      · exact Or.inl h

theorem mem_foldl_applyRule (ms : List FieldMapping) (lead : Lead) (acc : Obj) :
    ∀ kv ∈ ms.foldl (applyRule lead) acc,
      kv ∈ acc ∨ kv.1 ∈ ms.map (·.targetField) := by
  induction ms generalizing acc with
  | nil => intro kv hkv; exact Or.inl hkv
  | cons m rest ih =>
    intro kv hkv
    simp only [List.foldl_cons] at hkv
    rcases ih _ kv hkv with h1 | h1
    · rcases mem_applyRule lead acc m kv h1 with h2 | h2
      · exact Or.inl h2
      · right; simp [h2]
    · right; simp only [List.map_cons]; exact List.mem_cons_of_mem _ h1

theorem foldl_applyRule_congr (ms : List FieldMapping) (l1 l2 : Lead) (acc : Obj)
    (h : ∀ m ∈ ms, resolveValue l1 m.sourceField = resolveValue l2 m.sourceField) :
    ms.foldl (applyRule l1) acc = ms.foldl (applyRule l2) acc := by
  induction ms generalizing acc with
  | nil => rfl
  | cons m rest ih =>
    simp only [List.foldl_cons]
    have hm : applyRule l1 acc m = applyRule l2 acc m := by
      unfold applyRule
      rw [h m (List.mem_cons_self _ _)]
    rw [hm]
    exact ih _ (fun x hx => h x (List.mem_cons_of_mem _ hx))

theorem mem_defaultPayload (lead : Lead) :
    ∀ kv ∈ defaultPayload lead,
      kv.1 ∈ (["email", "phone", "first_name", "last_name", "country"] : List String) := by
  have key : ∀ (l : Obj) (acc : Obj),
      ∀ kv ∈ l.foldl
        (fun payload kv =>
          match kv.2 with
          | JVal.vnull => payload
          | v => objSet payload kv.1 v) acc,
        kv ∈ acc ∨ kv.1 ∈ l.map (·.1) := by
    intro l
    induction l with
    | nil => intro acc kv hkv; exact Or.inl hkv
    | cons hd rest ih =>
      intro acc kv hkv
      simp only [List.foldl_cons] at hkv
      rcases ih _ kv hkv with h1 | h1
      · revert h1
        cases hv : hd.2 <;> intro h1
        · rcases mem_objSet _ _ _ kv h1 with h2 | h2
          · right; simp [h2]
          · exact Or.inl h2
        · rcases mem_objSet _ _ _ kv h1 with h2 | h2
          · right; simp [h2]
          · exact Or.inl h2
        · rcases mem_objSet _ _ _ kv h1 with h2 | h2
          · right; simp [h2]
          · exact Or.inl h2
        · exact Or.inl h1
      · right; simp only [List.map_cons]; exact List.mem_cons_of_mem _ h1
  intro kv hkv
  rcases key (standardFields lead) [] kv hkv with h | h
  · cases h
  · simpa [standardFields] using h

/-! Claim theorems. -/

/-- C4, counterexample.  The claim says no field-mapping rule can override
az_tx_id.  With the single rule (source email, target az_tx_id), the JS
spread az_tx_id first, then the anonymized payload overwrites the reserved
key: the outbound payload carries the lead's email, not its transaction
id. -/
theorem C4_counterexample :
    objGet (requestPayload leadF [ruleC4]) "az_tx_id" = some (JVal.vstr "x@y")
    ∧ leadF.azTxId = "TX1"
    ∧ JVal.vstr "x@y" ≠ JVal.vstr "TX1" := by
  refine ⟨by decide, by decide, by decide⟩

/-- C4 (amended): the key az_tx_id is always present in the outbound
request payload, and it equals the lead's azTxId whenever no allow-listed
rule has target field az_tx_id; a rule targeting az_tx_id whose value
resolves can override it (it can never remove the key). -/
theorem C4_az_tx_id (lead : Lead) (rules : List FieldMapping) :
    (objGet (requestPayload lead rules) "az_tx_id").isSome = true
    ∧ ((∀ m ∈ allowRules rules, m.targetField ≠ "az_tx_id") →
        objGet (requestPayload lead rules) "az_tx_id" = some (JVal.vstr lead.azTxId)) := by
  constructor
  · unfold requestPayload
    apply isSome_objGet_foldl_objSet
    simp [objGet]
  · intro h
    unfold requestPayload
    rw [objGet_foldl_objSet]
    · simp [objGet]
    · intro kv hkv
      unfold buildAnonymizedPayload at hkv
      by_cases hlen : (allowRules rules).length > 0
      · rw [if_pos hlen] at hkv
        rcases mem_foldl_applyRule _ _ _ kv hkv with h1 | h1
        · cases h1
        · rcases List.mem_map.mp h1 with ⟨m, hm, hmt⟩
          rw [← hmt]; exact h m hm
      · rw [if_neg hlen] at hkv
        have hk := mem_defaultPayload lead kv hkv
        simp only [List.mem_cons, List.not_mem_nil, or_false] at hk
        rcases hk with h1 | h1 | h1 | h1 | h1 <;> simp [h1]

/-- C4 witness: with a rule that does not target az_tx_id, the outbound
payload carries the lead's transaction id under az_tx_id. -/
theorem C4_witness :
    objGet (requestPayload leadF [ruleC9]) "az_tx_id" = some (JVal.vstr "TX1") :=
  (C4_az_tx_id leadF [ruleC9]).2 (by decide)

/-- C7: when at least one allow-listed rule exists, the outbound payload's
keys are az_tx_id plus rule target fields only, and the payload depends on
the lead only through its transaction id and the rules' source fields: two
leads agreeing there (in the raw payload and the standard fields) produce
identical outbound payloads. -/
theorem C7_allowlist (rules : List FieldMapping) (h : allowRules rules ≠ []) :
    (∀ (lead : Lead) (key : String),
       (objGet (requestPayload lead rules) key).isSome = true →
       key = "az_tx_id" ∨ key ∈ (allowRules rules).map (·.targetField))
    ∧ (∀ l1 l2 : Lead, l1.azTxId = l2.azTxId →
       (∀ m ∈ allowRules rules,
          objGet l1.rawPayload m.sourceField = objGet l2.rawPayload m.sourceField
          ∧ objGet (standardFields l1) m.sourceField
              = objGet (standardFields l2) m.sourceField) →
       requestPayload l1 rules = requestPayload l2 rules) := by
  have hlen : (allowRules rules).length > 0 := List.length_pos.mpr h
  constructor
  · intro lead key hk
    unfold requestPayload at hk
    rcases isSome_objGet_foldl_objSet_inv _ _ _ hk with h1 | h1
    · left
      by_cases he : "az_tx_id" = key
      · exact he.symm
      · simp [objGet, he] at h1
    · right
      unfold buildAnonymizedPayload at h1
      rw [if_pos hlen] at h1
      rcases List.mem_map.mp h1 with ⟨kv, hkv, hk1⟩
      rcases mem_foldl_applyRule _ _ _ kv hkv with h2 | h2
      · cases h2
      · rw [← hk1]; exact h2
  · intro l1 l2 haz hagree
    unfold requestPayload
    have hb : buildAnonymizedPayload l1 rules = buildAnonymizedPayload l2 rules := by
      unfold buildAnonymizedPayload
      rw [if_pos hlen, if_pos hlen]
      apply foldl_applyRule_congr
      intro m hm
      unfold resolveValue
      rw [(hagree m hm).1, (hagree m hm).2]
    rw [hb, haz]

/-- C7 witness: two leads differing only in the phone field, which no rule
names as a source, produce identical outbound payloads. -/
theorem C7_witness :
    requestPayload leadC9 [ruleC9] = requestPayload leadC9b [ruleC9]
    ∧ leadC9.phone ≠ leadC9b.phone :=
  ⟨(C7_allowlist [ruleC9] (by decide)).2 leadC9 leadC9b rfl (by decide), by decide⟩

/-- C9, counterexample.  The claim says the target value is taken from the
raw tracking payload whenever the source key is present there (not
null/undefined).  Here the raw payload carries email as the empty string —
present and non-null — yet the JS || fallback discards the falsy raw value
and uses the lead's canonical email instead. -/
theorem C9_counterexample :
    objGet leadC9.rawPayload "email" = some (JVal.vstr "")
    ∧ isPresent (objGet leadC9.rawPayload "email") = true
    ∧ buildAnonymizedPayload leadC9 [ruleC9] = [("e", JVal.vstr "x@y.z")]
    ∧ JVal.vstr "x@y.z" ≠ JVal.vstr "" := by
  refine ⟨by decide, by decide, by decide, by decide⟩

/-- C9 (amended): a rule's value is taken from the raw tracking payload
whenever it is truthy there (present, non-null, and not the empty string,
zero or false), and otherwise falls back to the lead's standard field; the
named transform is applied to a resolved present value (as a string
operation, leaving non-string values unchanged), and a rule resolving to
null/undefined contributes no key. -/
theorem C9_resolution (lead : Lead) (payload : Obj) (m : FieldMapping) :
    (∀ v, objGet lead.rawPayload m.sourceField = some v → truthy (some v) = true →
       applyRule lead payload m = objSet payload m.targetField (applyTransform v m.transform))
    ∧ (∀ v, truthy (objGet lead.rawPayload m.sourceField) = false →
       objGet (standardFields lead) m.sourceField = some v → isPresent (some v) = true →
       applyRule lead payload m = objSet payload m.targetField (applyTransform v m.transform))
    ∧ (isPresent (resolveValue lead m.sourceField) = false →
       applyRule lead payload m = payload)
    ∧ (∀ s tpl,
        applyTransform (JVal.vstr s) (some ⟨"uppercase", tpl⟩) = JVal.vstr s.toUpper
        ∧ applyTransform (JVal.vstr s) (some ⟨"lowercase", tpl⟩) = JVal.vstr s.toLower
        ∧ applyTransform (JVal.vstr s) (some ⟨"trim", tpl⟩) = JVal.vstr s.trim
        ∧ (∀ t, jsReplaceFirst t "\x7b\x7bvalue\x7d\x7d" s ≠ "" →
            applyTransform (JVal.vstr s) (some ⟨"concat", some t⟩)
              = JVal.vstr (jsReplaceFirst t "\x7b\x7bvalue\x7d\x7d" s))
        ∧ applyTransform (JVal.vstr s) none = JVal.vstr s) := by
  refine ⟨?_, ?_, ?_, ?_⟩
  · intro v hraw htruthy
    unfold applyRule resolveValue jsOr
    rw [hraw, htruthy]
    simp only [if_true]
    cases v <;> simp_all [truthy]
  · intro v hfalsy hstd hpres
    unfold applyRule resolveValue jsOr
    rw [hfalsy, hstd]
    simp only [Bool.false_eq_true, if_false]
    cases v <;> simp_all [isPresent]
  · intro hnp
    unfold applyRule
    cases hr : resolveValue lead m.sourceField with
    | none => rfl
    | some v =>
      rw [hr] at hnp
      cases v <;> simp_all [isPresent]
  · intro s tpl
    refine ⟨rfl, rfl, rfl, ?_, rfl⟩
    intro t ht
    simp [applyTransform, ht]

/-- C9 witness: with email truthy in the raw payload, the raw value wins. -/
theorem C9_witness :
    applyRule leadF [] ruleC9
      = objSet [] "e" (applyTransform (JVal.vstr "x@y") none) :=
  (C9_resolution leadF [] ruleC9).2.1 (JVal.vstr "x@y") (by decide) (by decide) (by decide)

/-- C2: evaluation at the failing input.  A pending lead with an enabled
mapping whose advertiser answers HTTP 400: the lead status is written
forward_failed, but processForwardLead throws — the plain Error raised
after the status update is caught, misclassified as a server error (it has
no response property) and re-thrown, which signals the BullMQ job layer to
schedule a retry, contradicting the claim that no further retry is
signalled.  The re-executed job then no-ops on the status guard. -/
theorem C2_clientError_rethrows :
    (processForwardLead jobF (some leadF) (some mapF) [] (HttpOutcome.resolved 400)).leadStatus
      = some "forward_failed"
    ∧ (processForwardLead jobF (some leadF) (some mapF) [] (HttpOutcome.resolved 400)).throws
      = true
    ∧ processForwardLead ⟨1, some 6⟩ (some { leadF with status := "forward_failed" })
        (some mapF) [] HttpOutcome.netError = ⟨[], none, false⟩ := by
  refine ⟨by decide, by decide, by decide⟩

/-- C8: evaluation at the failing input.  A resolved 4xx response writes
two forward_logs rows for the single delivery attempt: the full-response
row from the try block, then the error row written by the catch block when
the deliberately thrown Error lands there (its statusCode is null since a
plain Error has no response).  A 2xx response and a transport error write
exactly one row each. -/
theorem C8_double_log_on_4xx :
    (processForwardLead jobF (some leadF) (some mapF) [] (HttpOutcome.resolved 400)).logs.length
      = 2
    ∧ (processForwardLead jobF (some leadF) (some mapF) [] (HttpOutcome.resolved 201)).logs.length
      = 1
    ∧ (processForwardLead jobF (some leadF) (some mapF) [] HttpOutcome.netError).logs.length
      = 1
    ∧ (processForwardLead jobF (some leadF) (some mapF) [] (HttpOutcome.resolved 400)).logs.map
        (·.statusCode) = [some 400, none] := by
  refine ⟨by decide, by decide, by decide, by decide⟩

/-- C5, counterexample.  The claim says any single-byte mutation to the
signature makes verification return false.  Changing the final hex digit
of the signature header from lowercase to uppercase is a single-byte
mutation, but Buffer.from(…, "hex") decodes hex case-insensitively, so the
mutated header still passes the constant-time digest comparison and
verification returns true. -/
theorem C5_counterexample :
    ("sha256=aB" : String)
        ≠ "sha256=" ++ createHmacSignature hmacAB "sha256" "s" "100" "b"
    ∧ ("sha256=aB" : String).length
        = ("sha256=" ++ createHmacSignature hmacAB "sha256" "s" "100" "b").length
    ∧ (("sha256=aB" : String).toList.zip
         ("sha256=" ++ createHmacSignature hmacAB "sha256" "s" "100" "b").toList).countP
        (fun q => q.1 != q.2) = 1
    ∧ verifyHmacSignature hmacAB "sha256" 100 "s" "100" "b" "sha256=aB" = true := by
  refine ⟨by decide, by decide, by decide, by decide⟩

/-- C5 (amended): signing then verifying with the same secret, timestamp
and body succeeds when the timestamp is within the 300-second window; and
verification returns false — never throws — whenever the header's
algorithm prefix differs from the configured algorithm, the timestamp
parses outside the window, or the provided hex digest decodes to different
bytes than the expected digest (which is what a mutation to body,
timestamp or signature produces unless the HMAC digests collide or the
mutation only changes the case of a hex digit). -/
theorem C5_sign_verify (hmac : HmacFn) (algo secret : String) (now : Int) :
    (∀ ts body t,
       jsSplitEq (algo ++ "=" ++ createHmacSignature hmac algo secret ts body)
         = [algo, createHmacSignature hmac algo secret ts body] →
       parseIntJS ts = some t → (now - t).natAbs ≤ 300 →
       verifyHmacSignature hmac algo now secret ts body
         (algo ++ "=" ++ createHmacSignature hmac algo secret ts body) = true)
    ∧ (∀ ts body sigstr h,
       jsSplitEq sigstr = [algo, h] →
       hexDecode h ≠ hexDecode (hmac algo secret (ts ++ ":" ++ body)) →
       verifyHmacSignature hmac algo now secret ts body sigstr = false)
    ∧ (∀ ts body sigstr a h,
       jsSplitEq sigstr = [a, h] → a ≠ algo →
       verifyHmacSignature hmac algo now secret ts body sigstr = false)
    ∧ (∀ ts body sigstr t,
       parseIntJS ts = some t → 300 < (now - t).natAbs →
       verifyHmacSignature hmac algo now secret ts body sigstr = false) := by
  refine ⟨?_, ?_, ?_, ?_⟩
  · intro ts body t hsplit hpt hw
    have hnw : ¬((now - t).natAbs > 300) := by omega
    simp only [createHmacSignature] at hsplit
    simp [verifyHmacSignature, createHmacSignature, hpt, hnw, hsplit]
  · intro ts body sigstr h hsplit hne
    unfold verifyHmacSignature
    cases hpt : parseIntJS ts with
    | none => simp [hsplit, hne]
    | some t =>
      by_cases hw : (now - t).natAbs > 300
      · simp [hw]
      · simp [hw, hsplit, hne]
  · intro ts body sigstr a h hsplit ha
    unfold verifyHmacSignature
    cases hpt : parseIntJS ts with
    | none => simp [hsplit, ha]
    | some t =>
      by_cases hw : (now - t).natAbs > 300
      · simp [hw]
      · simp [hw, hsplit, ha]
  · intro ts body sigstr t hpt hw
    simp [verifyHmacSignature, hpt, hw]

/-- C5 witness: concrete round trip through the signer and verifier. -/
theorem C5_witness :
    verifyHmacSignature hmacAB "sha256" 100 "s" "100" "b"
      ("sha256=" ++ createHmacSignature hmacAB "sha256" "s" "100" "b") = true :=
  (C5_sign_verify hmacAB "sha256" "s" 100).1 "100" "b" 100 (by decide) (by decide)
    (by decide)

/-- C6: the first replay check for a (timestamp, signature) pair whose key
is not cached reports no replay and stores the key with expiry now + 300
seconds; any second check with the same pair before that expiry reports a
replay.  The check takes no body at all, so the outcome is independent of
the callback body content. -/
theorem C6_replay (c : ReplayCache) (now : Int) (ts sg : String)
    (h : redisExists c now (replayKey ts sg) = false) :
    (checkReplayAttack c now ts sg).1 = false
    ∧ (checkReplayAttack c now ts sg).2.entries
        = (replayKey ts sg, now + 300) :: c.entries
    ∧ ∀ now2 : Int, now2 < now + 300 →
        (checkReplayAttack (checkReplayAttack c now ts sg).2 now2 ts sg).1 = true := by
  refine ⟨?_, ?_, ?_⟩
  · simp [checkReplayAttack, h]
  · simp [checkReplayAttack, h]
  · intro now2 h2
    have h' : (c.entries.any fun e => e.1 == replayKey ts sg && decide (now < e.2)) = false := by
      simpa [redisExists] using h
    simp [checkReplayAttack, redisExists, h', h2]

/-- C6 witness: a concrete pair is accepted on first use at time 0 and
rejected as a replay at time 120. -/
theorem C6_witness :
    (checkReplayAttack ⟨[]⟩ 0 "100" "sha256=ab").1 = false
    ∧ (checkReplayAttack (checkReplayAttack ⟨[]⟩ 0 "100" "sha256=ab").2
        120 "100" "sha256=ab").1 = true :=
  ⟨(C6_replay ⟨[]⟩ 0 "100" "sha256=ab" (by decide)).1,
   (C6_replay ⟨[]⟩ 0 "100" "sha256=ab" (by decide)).2.2 120 (by decide)⟩

/-! Helper lemmas about the callback handler. -/

theorem handleCallback_skipSecret (hmac : HmacFn) (algo : String) (now : Int)
    (st : CallbackState) (p : CallbackPayload) (sig ts : Option String)
    (lead : CbLead) (adv : CbAdvertiser)
    (h1 : p.azTxId ≠ "") (h2 : p.status ≠ "") (hl : st.lead = some lead)
    (htx : lead.azTxId = p.azTxId) (ha : lead.advertiser = some adv)
    (hsec : adv.endpointSecret = none) :
    handleCallback hmac algo now st p sig ts = callbackAccept now st lead adv p sig := by
  rcases sig with _ | sg <;> rcases ts with _ | t <;>
    simp [handleCallback, h1, h2, hl, htx, ha, hsec]

theorem handleCallback_noHeader (hmac : HmacFn) (algo : String) (now : Int)
    (st : CallbackState) (p : CallbackPayload) (sig ts : Option String)
    (lead : CbLead) (adv : CbAdvertiser)
    (h1 : p.azTxId ≠ "") (h2 : p.status ≠ "") (hl : st.lead = some lead)
    (htx : lead.azTxId = p.azTxId) (ha : lead.advertiser = some adv)
    (hmiss : sig = none ∨ ts = none) :
    handleCallback hmac algo now st p sig ts = callbackAccept now st lead adv p sig := by
  rcases hmiss with rfl | rfl
  · rcases ts with _ | t <;> cases hs : adv.endpointSecret <;>
      simp [handleCallback, h1, h2, hl, htx, ha, hs]
  · rcases sig with _ | sg <;> cases hs : adv.endpointSecret <;>
      simp [handleCallback, h1, h2, hl, htx, ha, hs]

theorem callbackAccept_approved (now : Int) (st : CallbackState) (lead : CbLead)
    (adv : CbAdvertiser) (p : CallbackPayload) (sig : Option String) (v : Int)
    (hs : p.status = "approved") (hp : p.payout = some v) (hv : 0 < v) :
    (callbackAccept now st lead adv p sig).1 = CallbackResult.ok
    ∧ (∃ lead2, (callbackAccept now st lead adv p sig).2.lead = some lead2
        ∧ lead2.id = lead.id ∧ lead2.azTxId = lead.azTxId
        ∧ lead2.affiliateId = lead.affiliateId ∧ lead2.advertiser = lead.advertiser)
    ∧ (callbackAccept now st lead adv p sig).2.commissions
        = (if st.commissions.any (commissionMatches lead.id adv.id) then st.commissions
           else st.commissions ++ [⟨lead.id, adv.id, lead.affiliateId, v⟩]) := by
  have hvne : v ≠ 0 := by omega
  unfold callbackAccept
  refine ⟨rfl, ?_, ?_⟩
  · by_cases hft : lead.ftdAt = none <;> simp [hs, hp, hft]
  · simp [hs, hp, hvne, hv]

/-- C1, counterexample.  The claim says a CallbackLog row is appended even
when the request is rejected for invalid signature or replay.  In the
source the callback_logs write sits after the signature/replay gate, so a
callback rejected 401 for an invalid signature (here a header with no
equals sign, hence a failing algorithm match) leaves callback_logs
untouched.  The replay rejection sits on the same side of the write. -/
theorem C1_counterexample :
    (handleCallback hmacAB "sha256" 100 stS pA (some "bad") (some "100")).1
      = CallbackResult.apiError 401 "INVALID_SIGNATURE"
    ∧ (handleCallback hmacAB "sha256" 100 stS pA (some "bad") (some "100")).2.callbackLogs
      = [] := by
  refine ⟨by decide, by decide⟩

/-- C1 (amended): a CallbackLog row is appended exactly for the callbacks
the handler acknowledges with ok; every rejected callback — bad signature,
replay, unknown lead, missing advertiser or missing body fields — returns
its error with the callback_logs table unchanged. -/
theorem C1_log_iff_accepted (hmac : HmacFn) (algo : String) (now : Int)
    (st : CallbackState) (p : CallbackPayload) (sig ts : Option String) :
    ((handleCallback hmac algo now st p sig ts).1 = CallbackResult.ok →
       (handleCallback hmac algo now st p sig ts).2.callbackLogs.length
         = st.callbackLogs.length + 1)
    ∧ ((handleCallback hmac algo now st p sig ts).1 ≠ CallbackResult.ok →
       (handleCallback hmac algo now st p sig ts).2.callbackLogs
         = st.callbackLogs) := by
  unfold handleCallback
  repeat' split
  all_goals constructor <;> intro h
  all_goals simp_all [callbackAccept]

/-- C1 witness: an accepted callback appends exactly one log row. -/
theorem C1_witness :
    (handleCallback hmacAB "sha256" 100 stS pA none none).2.callbackLogs.length
      = stS.callbackLogs.length + 1 :=
  (C1_log_iff_accepted hmacAB "sha256" 100 stS pA none none).1 (by decide)

/-- C3, counterexample.  The claim says the second identical invocation
still acknowledges ok.  For an advertiser with a secret and an identical
re-send of the same correctly signed request within the replay window, the
second invocation is rejected 400 as a replay instead of acknowledging ok
(the commission ledger still holds exactly one row). -/
theorem C3_counterexample :
    (handleCallback hmacAB "sha256" 100 stS pA (some "sha256=ab") (some "100")).1
      = CallbackResult.ok
    ∧ (handleCallback hmacAB "sha256" 100
        (handleCallback hmacAB "sha256" 100 stS pA (some "sha256=ab") (some "100")).2
        pA (some "sha256=ab") (some "100")).1
      = CallbackResult.apiError 400 "REPLAY_ATTACK"
    ∧ (handleCallback hmacAB "sha256" 100
        (handleCallback hmacAB "sha256" 100 stS pA (some "sha256=ab") (some "100")).2
        pA (some "sha256=ab") (some "100")).2.commissions.length = 1 := by
  refine ⟨by decide, by decide, by decide⟩

/-- C3 (amended): invoking the handler twice with the same approved payload
carrying a positive payout creates exactly one Commission row for the
(lead, advertiser) pair; when signature verification is skipped (here: the
advertiser has no secret) both invocations acknowledge ok and the second
creates no new Commission.  An identically signed re-send inside the
replay window is instead rejected as a replay, still without a second
Commission. -/
theorem C3_idempotent_commission (hmac : HmacFn) (algo : String) (now now2 : Int)
    (st : CallbackState) (p : CallbackPayload) (sig ts sig2 ts2 : Option String)
    (lead : CbLead) (adv : CbAdvertiser) (v : Int)
    (hl : st.lead = some lead) (htx : lead.azTxId = p.azTxId) (h1 : p.azTxId ≠ "")
    (hs : p.status = "approved") (hp : p.payout = some v) (hv : 0 < v)
    (ha : lead.advertiser = some adv) (hsec : adv.endpointSecret = none)
    (h0 : commissionCount st lead.id adv.id = 0) :
    (handleCallback hmac algo now st p sig ts).1 = CallbackResult.ok
    ∧ (handleCallback hmac algo now2 (handleCallback hmac algo now st p sig ts).2
        p sig2 ts2).1 = CallbackResult.ok
    ∧ (handleCallback hmac algo now2 (handleCallback hmac algo now st p sig ts).2
        p sig2 ts2).2.commissions
      = (handleCallback hmac algo now st p sig ts).2.commissions
    ∧ commissionCount
        (handleCallback hmac algo now2 (handleCallback hmac algo now st p sig ts).2
          p sig2 ts2).2 lead.id adv.id = 1 := by
  have h2 : p.status ≠ "" := by simp [hs]
  rw [handleCallback_skipSecret hmac algo now st p sig ts lead adv h1 h2 hl htx ha hsec]
  obtain ⟨hok1, ⟨lead2, hlead2, hid, haz2, haff, hadv⟩, hcomm1⟩ :=
    callbackAccept_approved now st lead adv p sig v hs hp hv
  have hany1 : st.commissions.any (commissionMatches lead.id adv.id) = false := by
    rw [← Bool.not_eq_true, List.any_eq_true]
    rintro ⟨x, hx, hpx⟩
    have hmem : x ∈ st.commissions.filter (commissionMatches lead.id adv.id) :=
      List.mem_filter.mpr ⟨hx, hpx⟩
    unfold commissionCount at h0
    rw [List.length_eq_zero] at h0
    rw [h0] at hmem
    cases hmem
  rw [hany1] at hcomm1
  simp only [Bool.false_eq_true, if_false] at hcomm1
  rw [handleCallback_skipSecret hmac algo now2 _ p sig2 ts2 lead2 adv h1 h2 hlead2
    (by rw [haz2, htx]) (by rw [hadv, ha]) hsec]
  obtain ⟨hok2, _, hcomm2⟩ :=
    callbackAccept_approved now2 (callbackAccept now st lead adv p sig).2 lead2 adv
      p sig2 v hs hp hv
  have hany2 : ((callbackAccept now st lead adv p sig).2.commissions.any
      (commissionMatches lead2.id adv.id)) = true := by
    rw [hid, hcomm1, List.any_append]
    have : (List.any [(⟨lead.id, adv.id, lead.affiliateId, v⟩ : CommissionRow)]
        (commissionMatches lead.id adv.id)) = true := by
      simp [commissionMatches]
    rw [this, Bool.or_true]
  rw [hany2] at hcomm2
  simp only [if_true] at hcomm2
  refine ⟨hok1, hok2, hcomm2, ?_⟩
  unfold commissionCount
  rw [hcomm2, hcomm1, List.filter_append]
  unfold commissionCount at h0
  rw [List.length_eq_zero] at h0
  rw [h0]
  simp [commissionMatches]

/-- C3 witness: concrete unauthenticated double delivery of an approved
callback with payout 25 yields exactly one commission for the pair. -/
theorem C3_witness :
    commissionCount
      (handleCallback hmacAB "sha256" 100
        (handleCallback hmacAB "sha256" 100 stN pA none none).2
        pA none none).2 cbLeadN.id cbAdvN.id = 1 :=
  (C3_idempotent_commission hmacAB "sha256" 100 100 stN pA none none none none
    cbLeadN cbAdvN 25 rfl rfl (by decide) rfl rfl (by decide) rfl rfl
    (by decide)).2.2.2

/-- C10: when the lead's advertiser has a non-empty secret but the
X-Signature or X-Signature-Timestamp header is absent, the handler skips
signature verification and the replay check entirely (the replay cache is
untouched), acknowledges ok, and behaves observably exactly as it does for
an advertiser with no secret at all: same result, same callback_logs, same
commissions, same replay cache and same lead status fields. -/
theorem C10_missing_headers (hmac : HmacFn) (algo : String) (now : Int)
    (st : CallbackState) (p : CallbackPayload) (sig ts : Option String)
    (lead : CbLead) (adv : CbAdvertiser) (secret : String)
    (hl : st.lead = some lead) (htx : lead.azTxId = p.azTxId) (h1 : p.azTxId ≠ "")
    (h2 : p.status ≠ "") (ha : lead.advertiser = some adv)
    (hsec : adv.endpointSecret = some secret) (hsne : secret ≠ "")
    (hmiss : sig = none ∨ ts = none) :
    (handleCallback hmac algo now st p sig ts).1 = CallbackResult.ok
    ∧ (handleCallback hmac algo now st p sig ts).2.replay = st.replay
    ∧ (handleCallback hmac algo now st p sig ts).1
        = (handleCallback hmac algo now
            { st with lead := some { lead with advertiser := some ⟨adv.id, none⟩ } }
            p sig ts).1
    ∧ (handleCallback hmac algo now st p sig ts).2.callbackLogs
        = (handleCallback hmac algo now
            { st with lead := some { lead with advertiser := some ⟨adv.id, none⟩ } }
            p sig ts).2.callbackLogs
    ∧ (handleCallback hmac algo now st p sig ts).2.commissions
        = (handleCallback hmac algo now
            { st with lead := some { lead with advertiser := some ⟨adv.id, none⟩ } }
            p sig ts).2.commissions
    ∧ ((handleCallback hmac algo now st p sig ts).2.lead.map
         fun l => (l.status, l.advertiserStatus, l.payout, l.ftdAt))
        = ((handleCallback hmac algo now
             { st with lead := some { lead with advertiser := some ⟨adv.id, none⟩ } }
             p sig ts).2.lead.map
            fun l => (l.status, l.advertiserStatus, l.payout, l.ftdAt)) := by
  rw [handleCallback_noHeader hmac algo now st p sig ts lead adv h1 h2 hl htx ha hmiss]
  rw [handleCallback_noHeader hmac algo now
    { st with lead := some { lead with advertiser := some ⟨adv.id, none⟩ } }
    p sig ts { lead with advertiser := some ⟨adv.id, none⟩ } ⟨adv.id, none⟩
    h1 h2 rfl htx rfl hmiss]
  refine ⟨rfl, rfl, rfl, rfl, rfl, ?_⟩
  rcases hpay : p.payout with _ | v <;>
    simp only [callbackAccept, hpay] <;> split_ifs <;> rfl

/-- C10 witness: with the secret configured and the signature header
absent, the concrete callback is acknowledged ok without any verification
state change. -/
theorem C10_witness :
    (handleCallback hmacAB "sha256" 100 stS pA none (some "100")).1
      = CallbackResult.ok :=
  (C10_missing_headers hmacAB "sha256" 100 stS pA none (some "100") cbLeadS cbAdvS
    "s" rfl rfl (by decide) (by decide) rfl rfl (by decide) (Or.inl rfl)).1

end AZLeads
